import Mathlib

/-!
# Verification of the nextstrain.org source/resource resolution core

Shallow embedding of `src/sources.js` and `src/sources/fetch.js`: the
Source / Resource / Subresource model, dataset alias resolution against the
availability cache, existence checks, access control and listing/info
failure policies.

JavaScript objects used as string-keyed maps are embedded as association
lists (`List (String × α)`); `undefined` is `Option.none`; a thrown
exception is `Except.error`; asynchronous control flow is flattened into
explicit sequencing, with HEAD-request traces recorded as lists of the
subresource types fetched.
-/

namespace Nextstrain

/-- JavaScript object-property lookup: `obj[key]`, `none` is `undefined`. -/
def lookupJs {α : Type} (m : List (String × α)) (k : String) : Option α :=
  match m.find? (fun kv => kv.1 == k) with
  | some kv => some kv.2
  | none => none

/-! ## Access control (`PrivateGroupSource.visibleToUser`, sources.js 645-654) -/

/-- An access principal; `groups` may be absent (`user.groups === undefined`). -/
structure Principal where
  groups : Option (List String)
deriving DecidableEq

/-- `PrivateGroupSource.visibleToUser(user)`:
`!!user && !!user.groups && user.groups.includes(this._name)`.
An absent principal or absent `groups` array is falsy; an empty `groups`
array is truthy in JS but `includes` then returns `false`, which the
`Option` embedding reproduces. -/
def privateGroupVisibleToUser (sourceName : String) (user : Option Principal) : Bool :=
  match user with
  | none => false
  | some u =>
    match u.groups with
    | none => false
    | some gs => gs.contains sourceName

/-! ## Existence checks (`Dataset.exists`, sources.js 147-158;
`UrlDefinedDataset.exists` / `UrlDefinedNarrative.exists`, sources/fetch.js 31-82)

`statusOf` gives the HTTP status each subresource type's HEAD request would
return; the second component of the result records which HEAD requests were
actually issued, in order. -/

/-- `Dataset.exists()`: HEAD "main"; 200 short-circuits to true, otherwise
HEAD "meta" and "tree" and require both to be 200
(`(await _exists("main")) || (await all(_exists("meta"), _exists("tree"))) || false`). -/
def datasetExists (statusOf : String → Nat) : Bool × List String :=
  let mainStatus := statusOf "main"
  if mainStatus = 200 then
    (true, ["main"])
  else
    let metaStatus := statusOf "meta"
    let treeStatus := statusOf "tree"
    (decide (metaStatus = 200) && decide (treeStatus = 200), ["main", "meta", "tree"])

/-- `UrlDefinedDataset.exists()` (sources/fetch.js): `return true`, no fetch. -/
def urlDefinedDatasetExists (_statusOf : String → Nat) : Bool × List String :=
  (true, [])

/-- `UrlDefinedNarrative.exists()` (sources/fetch.js): `return true`, no fetch. -/
def urlDefinedNarrativeExists (_statusOf : String → Nat) : Bool × List String :=
  (true, [])

/-! ## Resource construction (sources.js 77-101, 407-419) -/

/-- `NoResourcePathError` thrown by the `Resource` constructor. -/
inductive ResourceError
  | noResourcePath
deriving DecidableEq

/-- A Dataset as (source name, path parts). -/
structure DatasetE where
  sourceName : String
  pathParts : List String
deriving DecidableEq

/-- `Resource.baseParts` default: `this.pathParts.slice()`. -/
def resourceBaseParts (pathParts : List String) : List String :=
  pathParts

/-- `CommunityDataset.baseParts`: `["auspice/" + repoName, ...pathParts]`. -/
def communityDatasetBaseParts (repoName : String) (pathParts : List String) : List String :=
  (String.append "auspice/" repoName) :: pathParts

/-- The `Resource` constructor check: `if (!this.baseParts.length) throw new
NoResourcePathError()`. -/
def checkResourceConstruction (baseParts : List String) : Except ResourceError Unit :=
  if baseParts.length = 0 then Except.error ResourceError.noResourcePath
  else Except.ok ()

/-- `new Dataset(coreSource, pathParts)`: base parts are the path parts. -/
def mkCoreDataset (pathParts : List String) : Except ResourceError DatasetE :=
  (checkResourceConstruction (resourceBaseParts pathParts)).map
    (fun _ => { sourceName := "core", pathParts := pathParts })

/-- `new CommunityDataset(communitySource, pathParts)`: base parts gain the
`auspice/` directory and repository name. -/
def mkCommunityDataset (repoName : String) (pathParts : List String) :
    Except ResourceError DatasetE :=
  (checkResourceConstruction (communityDatasetBaseParts repoName pathParts)).map
    (fun _ => { sourceName := "community", pathParts := pathParts })

/-! ## Dataset alias resolution (`Dataset.resolve`, sources.js 173-205)

The availability cache `global.availableDatasets` holds, per source name, the
list of known canonical paths and (under its `defaults` key) a map from a
partial path to the next default segment.  `resolve()` joins the path parts
with "/", returns the dataset itself on a verbatim hit or when the cache has
no entry for the source, otherwise consults
`global.availableDatasets.defaults[sourceName][prefix]` — which throws a
TypeError when `defaults[sourceName]` is `undefined` — and recurses on the
lengthened path when a truthy next segment is found. -/

/-- The availability cache: known paths and default next segments per source. -/
structure AvailableDatasets where
  paths : List (String × List String)
  defaults : List (String × List (String × String))

/-- `Array.prototype.join("/")`. -/
def joinSlash : List String → String
  | [] => ""
  | [s] => s
  | s :: s2 :: rest => s ++ "/" ++ joinSlash (s2 :: rest)

/-- The TypeError raised by `defaults[sourceName][prefix]` when
`defaults[sourceName]` is `undefined`. -/
def typeErrorMsg : String := "TypeError: Cannot read properties of undefined"

/-- One step of `Dataset.resolve()`: either a terminal outcome (`Sum.inl`,
the returned dataset or a thrown error) or the lengthened dataset to recurse
on (`Sum.inr`, from `new this.constructor(this.source, [...prefixParts,
nextDefaultPart]).resolve()`). -/
def resolveStep (avail : AvailableDatasets) (d : DatasetE) :
    Except String DatasetE ⊕ DatasetE :=
  match lookupJs avail.paths d.sourceName with
  | none => Sum.inl (Except.ok d)
  | some known =>
    if known.contains (joinSlash d.pathParts) then Sum.inl (Except.ok d)
    else
      match lookupJs avail.defaults d.sourceName with
      | none => Sum.inl (Except.error typeErrorMsg)
      | some defs =>
        match lookupJs defs (joinSlash d.pathParts) with
        | none => Sum.inl (Except.ok d)
        | some seg =>
          if seg == "" then Sum.inl (Except.ok d)
          else Sum.inr { sourceName := d.sourceName, pathParts := d.pathParts ++ [seg] }

/-- `Dataset.resolve()` driven by explicit fuel; `none` means the fuel ran
out before the recursion reached a terminal state. -/
def resolveFuel (avail : AvailableDatasets) : Nat → DatasetE → Option (Except String DatasetE)
  | 0, _ => none
  | fuel+1, d =>
    match resolveStep avail d with
    | Sum.inl r => some r
    | Sum.inr d' => resolveFuel avail fuel d'

/-- The defaults table consulted for a given source (`[]` when absent, used
only to bound key lengths). -/
def defaultsFor (avail : AvailableDatasets) (sourceName : String) : List (String × String) :=
  (lookupJs avail.defaults sourceName).getD []

/-- Largest key length in a defaults table. -/
def maxKeyLen (defs : List (String × String)) : Nat :=
  defs.foldr (fun kv acc => max kv.1.length acc) 0

theorem length_le_maxKeyLen (defs : List (String × String)) (k v : String)
    (h : lookupJs defs k = some v) : k.length ≤ maxKeyLen defs := by
  induction defs with
  | nil => simp [lookupJs, List.find?] at h
  | cons kv rest ih =>
    by_cases hk : kv.1 == k
    · have : kv.1 = k := eq_of_beq hk
      subst this
      simp [maxKeyLen, List.foldr]
    · have h' : lookupJs rest k = some v := by
        simpa [lookupJs, List.find?, hk] using h
      calc k.length ≤ maxKeyLen rest := ih h'
        _ ≤ max kv.1.length (maxKeyLen rest) := le_max_right _ _
        _ = maxKeyLen (kv :: rest) := by simp [maxKeyLen, List.foldr]

theorem String.length_pos_of_ne_empty (s : String) (h : s ≠ "") : 0 < s.length := by
  cases s with
  | mk data =>
    cases data with
    | nil => simp at h
    | cons c cs => simp [String.length]

theorem joinSlash_length_lt (parts : List String) (seg : String) (h : seg ≠ "") :
    (joinSlash parts).length < (joinSlash (parts ++ [seg])).length := by
  induction parts with
  | nil =>
    simpa [joinSlash] using String.length_pos_of_ne_empty seg h
  | cons a tail ih =>
    cases tail with
    | nil =>
      have hseg := String.length_pos_of_ne_empty seg h
      simp [joinSlash, String.length_append]
      omega
    | cons b rest =>
      have step : joinSlash ((a :: b :: rest) ++ [seg])
          = a ++ "/" ++ joinSlash ((b :: rest) ++ [seg]) := by
        simp [joinSlash]
      rw [step]
      simp only [joinSlash, String.length_append]
      omega

theorem resolveStep_inl_ok (avail : AvailableDatasets) (d r : DatasetE)
    (h : resolveStep avail d = Sum.inl (Except.ok r)) : r = d := by
  unfold resolveStep at h
  split at h
  · exact (Except.ok.inj (Sum.inl.inj h)).symm
  · split at h
    · exact (Except.ok.inj (Sum.inl.inj h)).symm
    · split at h
      · exact absurd (Sum.inl.inj h) (by simp)
      · split at h
        · exact (Except.ok.inj (Sum.inl.inj h)).symm
        · split at h
          · exact (Except.ok.inj (Sum.inl.inj h)).symm
          · exact absurd h (by simp)

theorem resolveStep_inr (avail : AvailableDatasets) (d d' : DatasetE)
    (h : resolveStep avail d = Sum.inr d') :
    d'.sourceName = d.sourceName ∧
    ∃ seg, seg ≠ "" ∧ d'.pathParts = d.pathParts ++ [seg] ∧
      lookupJs (defaultsFor avail d.sourceName) (joinSlash d.pathParts) = some seg := by
  unfold resolveStep at h
  split at h
  · exact absurd h (by simp)
  · split at h
    · exact absurd h (by simp)
    · split at h
      · exact absurd h (by simp)
      · split at h
        · exact absurd h (by simp)
        · split at h
          · exact absurd h (by simp)
          · obtain rfl : d' = _ := (Sum.inr.inj h).symm
            refine ⟨rfl, _, ?_, rfl, ?_⟩ <;> simp_all [defaultsFor]

theorem resolveFuel_isSome (avail : AvailableDatasets) :
    ∀ (fuel : Nat) (d : DatasetE), 1 ≤ fuel →
      maxKeyLen (defaultsFor avail d.sourceName) + 2 ≤ (joinSlash d.pathParts).length + fuel →
      (resolveFuel avail fuel d).isSome = true := by
  intro fuel
  induction fuel with
  | zero => intro d h1 _; omega
  | succ n ih =>
    intro d _ hbound
    cases hstep : resolveStep avail d with
    | inl r => simp [resolveFuel, hstep]
    | inr d' =>
      obtain ⟨hsrc, seg, hne, hparts, hfound⟩ := resolveStep_inr avail d d' hstep
      have hlenle : (joinSlash d.pathParts).length ≤ maxKeyLen (defaultsFor avail d.sourceName) :=
        length_le_maxKeyLen _ _ _ hfound
      have hgrow : (joinSlash d.pathParts).length < (joinSlash d'.pathParts).length := by
        rw [hparts]; exact joinSlash_length_lt _ _ hne
      have h1' : 1 ≤ n := by omega
      have hbound' :
          maxKeyLen (defaultsFor avail d'.sourceName) + 2 ≤ (joinSlash d'.pathParts).length + n := by
        rw [hsrc]; omega
      simpa [resolveFuel, hstep] using ih d' h1' hbound'

/-- Evaluating an option known to be `some`. -/
theorem optGet_eq {α : Type} (o : Option α) (h : o.isSome = true) (v : α)
    (hv : o = some v) : o.get h = v := by
  subst hv; rfl

/-- `Dataset.resolve()`: run the recursion with provably sufficient fuel.
The fuel bound exists because the JS defaults object is a finite map and each
recursive call strictly lengthens the joined path, which must be one of the
map's keys for the recursion to continue. -/
def resolveD (avail : AvailableDatasets) (d : DatasetE) : Except String DatasetE :=
  (resolveFuel avail (maxKeyLen (defaultsFor avail d.sourceName) + 2) d).get
    (resolveFuel_isSome avail (maxKeyLen (defaultsFor avail d.sourceName) + 2) d
      (by omega) (by omega))

theorem resolveD_eq_of_fuel (avail : AvailableDatasets) (d : DatasetE)
    (r : Except String DatasetE)
    (h : resolveFuel avail (maxKeyLen (defaultsFor avail d.sourceName) + 2) d = some r) :
    resolveD avail d = r :=
  optGet_eq _ _ _ h

theorem resolveFuel_of_resolveD (avail : AvailableDatasets) (d : DatasetE) :
    resolveFuel avail (maxKeyLen (defaultsFor avail d.sourceName) + 2) d
      = some (resolveD avail d) := by
  unfold resolveD
  exact (Option.some_get _).symm

/-! ## Group info (`S3Source.getInfo` and friends, sources.js 537-623)

The YAML front-matter values relevant to `parseOverviewMarkdown` take one of
three JavaScript shapes: absent (`undefined`/`null`), a boolean, or a
string.  S3 interactions are oracles: the bucket listing result, the
fetched-and-decompressed object body (covering `getObject` rejections and
`gunzipSync` throws), the front-matter parse of a body, and the signed-URL
generator. -/

/-- A JavaScript front-matter value: absent, boolean, or string. -/
inductive JsVal
  | undef
  | boolean (b : Bool)
  | string (s : String)
deriving DecidableEq

/-- JavaScript truthiness of a `JsVal`. -/
def jsTruthy : JsVal → Bool
  | JsVal.undef => false
  | JsVal.boolean b => b
  | JsVal.string s => !(s == "")

/-- `typeof v === "boolean"`. -/
def jsIsBoolean : JsVal → Bool
  | JsVal.boolean _ => true
  | _ => false

/-- `String.prototype.includes`: the pattern occurs as a substring
(the pattern here is always non-empty). -/
def jsIncludes (s pat : String) : Bool :=
  !((s.splitOn pat).length == 1)

/-- Result of `yamlFront.loadFront`: the recognised front-matter fields plus
the remaining `__content`. -/
structure FrontMatter where
  title : JsVal
  byline : JsVal
  website : JsVal
  showDatasets : JsVal
  showNarratives : JsVal
  content : String
deriving DecidableEq

/-- `S3Source.parseOverviewMarkdown` (sources.js 544-568): validates the
front matter and returns the six-tuple
`[title, byline, website, showDatasets, showNarratives, content]`;
a truthy non-string `website` hits `website.includes` and raises a
TypeError, also caught by `getInfo`. -/
def parseOverviewMarkdown (loadFront : String → FrontMatter) (md : String) :
    Except String (JsVal × JsVal × JsVal × JsVal × JsVal × String) := do
  let fm := loadFront md
  if !jsTruthy fm.title then
    throw "The overview file requires `title` in the frontmatter."
  if jsTruthy fm.website then
    match fm.website with
    | JsVal.string s =>
      if !jsIncludes s "http" then
        throw "The website field in the overview file requires \"http\" to be present."
    | _ => throw "TypeError: frontMatter.website.includes is not a function"
  if jsTruthy fm.showDatasets && !jsIsBoolean fm.showDatasets then
    throw "The `showDatasets` field in the frontmatter must be a boolean."
  if jsTruthy fm.showNarratives && !jsIsBoolean fm.showNarratives then
    throw "The `showNarratives` field in the frontmatter must be a boolean."
  let content := fm.content.replace "\r\n" "\n"
  pure (fm.title, fm.byline, fm.website, fm.showDatasets, fm.showNarratives, content)

/-- The async record returned by `getInfo()`. -/
structure InfoRecord where
  title : JsVal
  byline : JsVal
  website : JsVal
  showDatasets : JsVal
  showNarratives : JsVal
  avatar : Option String
  overview : Option String
  error : Option String
deriving DecidableEq

/-- Default group title `"${this.name}" Nextstrain group`. -/
def groupDefaultTitle (name : String) : String :=
  "\"" ++ name ++ "\" Nextstrain group"

/-- Default group byline. -/
def groupDefaultByline : String :=
  "The available datasets and narratives in this group are listed below."

/-- The `try` block of `S3Source.getInfo` (sources.js 577-610): list the
bucket, sign a logo URL if `group-logo.png` exists, and override the default
record from `group-overview.md` when present. -/
def s3GetInfoTry (name : String) (signedUrl : String → String → String)
    (listResult : Except String (List String))
    (getObj : String → Except String String)
    (loadFront : String → FrontMatter) : Except String InfoRecord := do
  let objectKeys ← listResult
  let logoSrc : Option String :=
    if objectKeys.contains "group-logo.png" then
      some (signedUrl "getObject" "group-logo.png")
    else none
  if objectKeys.contains "group-overview.md" then
    let overviewContent ← getObj "group-overview.md"
    let (title, byline, website, showDatasets0, showNarratives0, content) ←
      parseOverviewMarkdown loadFront overviewContent
    let showDatasets := if showDatasets0 = JsVal.undef then JsVal.boolean true else showDatasets0
    let showNarratives := if showNarratives0 = JsVal.undef then JsVal.boolean true else showNarratives0
    pure { title := title, byline := byline, website := website,
           showDatasets := showDatasets, showNarratives := showNarratives,
           avatar := logoSrc, overview := some content, error := none }
  else
    pure { title := JsVal.string (groupDefaultTitle name),
           byline := JsVal.string groupDefaultByline,
           website := JsVal.undef,
           showDatasets := JsVal.boolean true, showNarratives := JsVal.boolean true,
           avatar := logoSrc, overview := none, error := none }

/-- `S3Source.getInfo` (sources.js 576-623): the `try` block with its
`catch` producing the generic fallback record carrying `error`. -/
def s3GetInfo (name : String) (signedUrl : String → String → String)
    (listResult : Except String (List String))
    (getObj : String → Except String String)
    (loadFront : String → FrontMatter) : InfoRecord :=
  match s3GetInfoTry name signedUrl listResult getObj loadFront with
  | Except.ok r => r
  | Except.error err =>
    { title := JsVal.string (groupDefaultTitle name),
      byline := JsVal.string groupDefaultByline,
      website := JsVal.undef,
      showDatasets := JsVal.boolean true, showNarratives := JsVal.boolean true,
      avatar := none, overview := none,
      error := some (String.append "Error in custom group info: " err) }

/-- ASCII apostrophe, used in the community byline. -/
def apostrophe : String := String.singleton (Char.ofNat 39)

/-- `CoreSource.getInfo` (sources.js 275-281): a constant record. -/
def coreGetInfo (name : String) : InfoRecord :=
  { title := JsVal.string ("Nextstrain " ++ name ++ " datasets & narratives"),
    byline := JsVal.undef, website := JsVal.undef,
    showDatasets := JsVal.boolean true, showNarratives := JsVal.boolean true,
    avatar := none, overview := none, error := none }

/-- `CommunitySource.getInfo` (sources.js 386-404): a record built from the
owner, repository and resolved branch, with a GitHub avatar URL. -/
def communityGetInfo (owner repoName branch : String) : InfoRecord :=
  { title := JsVal.string (owner ++ apostrophe ++ "s \"" ++ repoName ++ "\" community builds"),
    byline := JsVal.string ("\n        Nextstrain community builds for GitHub → "
      ++ owner ++ "/" ++ repoName ++ " (" ++ branch ++ " branch).\n        "
      ++ "The available datasets and narratives in this repository are listed below.\n      "),
    website := JsVal.undef,
    showDatasets := JsVal.boolean true, showNarratives := JsVal.boolean true,
    avatar := some ("https://github.com/" ++ owner ++ ".png?size=200"),
    overview := none, error := none }

/-- `UrlDefinedSource.getInfo` (sources.js 454): `return {}`. -/
def urlDefinedGetInfo : InfoRecord :=
  { title := JsVal.undef, byline := JsVal.undef, website := JsVal.undef,
    showDatasets := JsVal.undef, showNarratives := JsVal.undef,
    avatar := none, overview := none, error := none }

/-! ## GitHub-hosted listings (sources.js 254-273, 339-385)

Each listing is a function of the HTTP status of the GitHub contents-listing
response and the decoded file list.  The result pairs the outcome — a thrown
`NotFound` or the derived path list — with whether a warning was logged
(`utils.warn`). -/

/-- A GitHub contents-listing entry. -/
structure GFile where
  name : String
  type : String
deriving DecidableEq

/-- `NotFound` from `http-errors`. -/
inductive ListingError
  | notFound
deriving DecidableEq

/-- Modelled from the spec: `utils.getDatasetsFromListOfFilenames`
(src/utils.js is not among the provided sources).  Per §4.4 it derives
dataset path candidates from flat filenames via the shared convention:
keep `.json` files that are not sidecar files (suffixes `_meta`, `_tree`,
`_tip-frequencies`, `_root-sequence`), strip the extension, and convert
underscore-joined tokens to slash-separated path segments. -/
def getDatasetsFromListOfFilenames (filenames : List String) : List String :=
  (filenames.filter (fun f =>
      f.endsWith ".json"
      && !(["_meta.json", "_tree.json", "_tip-frequencies.json", "_root-sequence.json"].any
            (fun suffix => f.endsWith suffix))))
    |>.map (fun f => String.intercalate "/" ((f.dropRight 5).splitOn "_"))

/-- JavaScript `String.prototype.replace` with a plain-string pattern:
replaces the first occurrence only. -/
def replaceFirst (s pat repl : String) : String :=
  match s.splitOn pat with
  | [] => s
  | [_] => s
  | a :: rest => a ++ repl ++ String.intercalate pat rest

/-- `/[.]md$/` replacement: strip a trailing `.md`. -/
def stripMdSuffix (s : String) : String :=
  if s.endsWith ".md" then s.dropRight 3 else s

/-- `/^_/` replacement: strip one leading underscore. -/
def stripLeadingUnderscore (s : String) : String :=
  if s.startsWith "_" then s.drop 1 else s

/-- `.split("_").join("/")`. -/
def underscoresToSlashes (s : String) : String :=
  String.intercalate "/" (s.splitOn "_")

/-- `CoreSource.availableNarratives` (sources.js 254-273): 404 throws
`NotFound`; any other non-200/304 status warns and yields `[]`; otherwise
markdown files other than `README.md` map to slash paths. -/
def coreAvailableNarratives (status : Nat) (files : List GFile) :
    Except ListingError (List String) × Bool :=
  if status = 404 then (Except.error ListingError.notFound, false)
  else if status ≠ 200 && status ≠ 304 then (Except.ok [], true)
  else
    (Except.ok (((files.filter (fun f => f.type == "file"))
        |>.filter (fun f => !(f.name == "README.md"))
        |>.filter (fun f => f.name.endsWith ".md"))
        |>.map (fun f => underscoresToSlashes (stripMdSuffix f.name))), false)

/-- `CommunitySource.availableDatasets` (sources.js 339-359): 404 throws
`NotFound`; any other non-200/304 status warns and yields `[]`; otherwise
files starting with the repository name map through the shared filename
convention with the repository-name segment stripped. -/
def communityAvailableDatasets (repoName : String) (status : Nat) (files : List GFile) :
    Except ListingError (List String) × Bool :=
  if status = 404 then (Except.error ListingError.notFound, false)
  else if status ≠ 200 && status ≠ 304 then (Except.ok [], true)
  else
    let filenames := ((files.filter (fun f => f.type == "file"))
      |>.filter (fun f => f.name.startsWith repoName))
      |>.map (fun f => f.name)
    (Except.ok ((getDatasetsFromListOfFilenames filenames)
      |>.map (fun pathname => replaceFirst pathname (repoName ++ "/") "")), false)

/-- `CommunitySource.availableNarratives` (sources.js 361-385): any
non-200/304 status yields `[]`, warning only when the status is not 404 —
a 404 is "no narratives for this repo", not an error. -/
def communityAvailableNarratives (repoName : String) (status : Nat) (files : List GFile) :
    Except ListingError (List String) × Bool :=
  if status ≠ 200 && status ≠ 304 then
    (Except.ok [], status ≠ 404)
  else
    (Except.ok (((files.filter (fun f => f.type == "file"))
        |>.filter (fun f => !(f.name == "README.md"))
        |>.filter (fun f => f.name.endsWith ".md")
        |>.filter (fun f => f.name.startsWith repoName))
        |>.map (fun f => underscoresToSlashes
            (stripMdSuffix (stripLeadingUnderscore (replaceFirst f.name repoName ""))))), false)

/-! ## Shared helper lemmas for the claim theorems -/

theorem resolveFuel_succ (avail : AvailableDatasets) (fuel : Nat) (d : DatasetE) :
    resolveFuel avail (fuel + 1) d =
      match resolveStep avail d with
      | Sum.inl r => some r
      | Sum.inr d' => resolveFuel avail fuel d' := rfl

theorem resolveFuel_ok_extends (avail : AvailableDatasets) :
    ∀ (fuel : Nat) (d r : DatasetE),
      resolveFuel avail fuel d = some (Except.ok r) →
      r.sourceName = d.sourceName ∧ ∃ ext, r.pathParts = d.pathParts ++ ext := by
  intro fuel
  induction fuel with
  | zero => intro d r h; simp [resolveFuel] at h
  | succ n ih =>
    intro d r h
    rw [resolveFuel_succ] at h
    cases hstep : resolveStep avail d with
    | inl x =>
      rw [hstep] at h
      have hx : x = Except.ok r := by simpa using h
      subst hx
      have hrd : r = d := resolveStep_inl_ok avail d r hstep
      subst hrd
      exact ⟨rfl, [], by simp⟩
    | inr d' =>
      rw [hstep] at h
      obtain ⟨hsrc', ext', hext'⟩ := ih d' r h
      obtain ⟨hsrc, seg, _, hparts, _⟩ := resolveStep_inr avail d d' hstep
      refine ⟨by rw [hsrc', hsrc], [seg] ++ ext', ?_⟩
      rw [hext', hparts, List.append_assoc]

/-! ## Claim theorems -/

/-- Claim C1: `PrivateGroupSource.visibleToUser(p)` is true iff the principal is
present, has a `groups` array, and that array contains the source's name;
in particular it is false for an absent principal and for a principal with
an empty `groups` array. -/
theorem claim_C1_private_group_visibility (name : String) (user : Option Principal) :
    (privateGroupVisibleToUser name user = true ↔
      ∃ p gs, user = some p ∧ p.groups = some gs ∧ name ∈ gs)
    ∧ privateGroupVisibleToUser name none = false
    ∧ privateGroupVisibleToUser name (some { groups := some [] }) = false := by
  refine ⟨?_, rfl, rfl⟩
  cases user with
  | none => simp [privateGroupVisibleToUser]
  | some u =>
    cases hg : u.groups with
    | none => simp [privateGroupVisibleToUser, hg]
    | some gs => simp [privateGroupVisibleToUser, hg]

/-- Claim C2: `Dataset.exists()` is true exactly when the "main" subresource HEAD
returns 200, or — failing that — both the "meta" and "tree" subresource
HEADs return 200; every other combination of statuses yields false.  The
disjunctive form is equivalent to the claim's case split on the "main"
status. -/
theorem claim_C2_dataset_exists_main_or_legacy_pair (statusOf : String → Nat) :
    (datasetExists statusOf).1 = true ↔
      (statusOf "main" = 200 ∨ (statusOf "meta" = 200 ∧ statusOf "tree" = 200)) := by
  by_cases h : statusOf "main" = 200 <;> simp [datasetExists, h]

/-- Claim C3: a URL-defined Dataset and a URL-defined Narrative (sources/fetch.js)
report existence unconditionally, with an empty HEAD-request trace,
whatever statuses the network would have returned. -/
theorem claim_C3_url_defined_exists_unconditional (statusOf : String → Nat) :
    urlDefinedDatasetExists statusOf = (true, [])
    ∧ urlDefinedNarrativeExists statusOf = (true, []) :=
  ⟨rfl, rfl⟩

/-- Claim C4: when a dataset's joined path occurs verbatim in the availability
cache's known paths for its source, `resolve()` returns the dataset itself;
hence resolving the result of any resolve() that ended in a verbatim cache
hit (which satisfies these same hypotheses) returns it unchanged. -/
theorem claim_C4_resolve_idempotent_on_verbatim_hit (avail : AvailableDatasets)
    (d : DatasetE) (known : List String)
    (hpaths : lookupJs avail.paths d.sourceName = some known)
    (hhit : known.contains (joinSlash d.pathParts) = true) :
    resolveD avail d = Except.ok d := by
  apply resolveD_eq_of_fuel
  have hstep : resolveStep avail d = Sum.inl (Except.ok d) := by
    unfold resolveStep
    rw [hpaths]
    exact if_pos hhit
  have h2 : maxKeyLen (defaultsFor avail d.sourceName) + 2
      = (maxKeyLen (defaultsFor avail d.sourceName) + 1) + 1 := rfl
  rw [h2, resolveFuel_succ, hstep]

/-- Availability cache for the C4 witness. -/
def cacheVerbatim : AvailableDatasets :=
  { paths := [("core", ["a/b"])],
    defaults := [("core", [("a", "b")])] }

/-- Dataset for the C4 witness. -/
def datasetVerbatim : DatasetE :=
  { sourceName := "core", pathParts := ["a", "b"] }

theorem claim_C4_witness :
    lookupJs cacheVerbatim.paths datasetVerbatim.sourceName = some ["a/b"]
    ∧ (["a/b"] : List String).contains (joinSlash datasetVerbatim.pathParts) = true
    ∧ resolveD cacheVerbatim datasetVerbatim = Except.ok datasetVerbatim :=
  ⟨rfl, rfl,
    claim_C4_resolve_idempotent_on_verbatim_hit cacheVerbatim datasetVerbatim ["a/b"] rfl rfl⟩

/-- Claim C5: `Dataset.resolve()` terminates for every availability cache,
including defaults tables whose chains are cyclic or otherwise adversarial:
a JavaScript object is a finite map, each recursive call strictly lengthens
the joined path, and the path must be one of the (finitely many,
bounded-length) default keys for the recursion to continue — so fuel
`maxKeyLen + 2` always suffices, with no explicit depth bound in the code. -/
theorem claim_C5_resolve_terminates (avail : AvailableDatasets) (d : DatasetE) :
    ∃ fuel, (resolveFuel avail fuel d).isSome = true :=
  ⟨maxKeyLen (defaultsFor avail d.sourceName) + 2,
    resolveFuel_isSome avail (maxKeyLen (defaultsFor avail d.sourceName) + 2) d
      (by omega) (by omega)⟩

/-- Availability cache whose defaults table has no entry for the source
(C6 counterexample). -/
def cacheNoDefaultsEntry : AvailableDatasets :=
  { paths := [("blab", ["a"])],
    defaults := [] }

/-- Dataset for the C6 counterexample. -/
def datasetNoDefault : DatasetE :=
  { sourceName := "blab", pathParts := ["b"] }

/-- Claim C6 counterexample: with known paths present for the source but no
defaults entry for it at all, `resolve()` does not return the dataset —
`defaults[sourceName][prefix]` throws a TypeError
(`defaults[sourceName]` is `undefined`). -/
theorem claim_C6_counterexample_missing_defaults_entry_raises :
    resolveD cacheNoDefaultsEntry datasetNoDefault = Except.error typeErrorMsg
    ∧ resolveD cacheNoDefaultsEntry datasetNoDefault ≠ Except.ok datasetNoDefault := by
  have h1 : resolveD cacheNoDefaultsEntry datasetNoDefault = Except.error typeErrorMsg := rfl
  refine ⟨h1, ?_⟩
  rw [h1]
  intro hcontra
  exact Except.noConfusion hcontra

/-- Claim C6 as amended: when the source has known paths, the joined path is not
among them, and the defaults table **has an entry for the source** that
yields no (truthy) next segment for the path, `resolve()` returns the
dataset itself without raising.  (The original claim also covered a cache
with no defaults entry for the source; there the code instead throws a
TypeError, as the counterexample shows.) -/
theorem claim_C6_amended_no_default_returns_self (avail : AvailableDatasets)
    (d : DatasetE) (known : List String) (defs : List (String × String))
    (hpaths : lookupJs avail.paths d.sourceName = some known)
    (hmiss : known.contains (joinSlash d.pathParts) = false)
    (hdefs : lookupJs avail.defaults d.sourceName = some defs)
    (hnone : lookupJs defs (joinSlash d.pathParts) = none
      ∨ lookupJs defs (joinSlash d.pathParts) = some "") :
    resolveD avail d = Except.ok d := by
  apply resolveD_eq_of_fuel
  have hstep : resolveStep avail d = Sum.inl (Except.ok d) := by
    unfold resolveStep
    rw [hpaths]
    cases hnone with
    | inl h => simp [hmiss, hdefs, h]
    | inr h => simp [hmiss, hdefs, h]
  have h2 : maxKeyLen (defaultsFor avail d.sourceName) + 2
      = (maxKeyLen (defaultsFor avail d.sourceName) + 1) + 1 := rfl
  rw [h2, resolveFuel_succ, hstep]

/-- Availability cache for the C6 witness: a defaults entry exists for the
source but yields nothing for the requested path. -/
def cacheEmptyDefaults : AvailableDatasets :=
  { paths := [("core", ["x"])],
    defaults := [("core", [])] }

/-- Dataset for the C6 witness. -/
def datasetUnmatched : DatasetE :=
  { sourceName := "core", pathParts := ["y"] }

theorem claim_C6_amended_witness :
    lookupJs cacheEmptyDefaults.paths datasetUnmatched.sourceName = some ["x"]
    ∧ (["x"] : List String).contains (joinSlash datasetUnmatched.pathParts) = false
    ∧ lookupJs cacheEmptyDefaults.defaults datasetUnmatched.sourceName = some []
    ∧ resolveD cacheEmptyDefaults datasetUnmatched = Except.ok datasetUnmatched :=
  ⟨rfl, rfl, rfl,
    claim_C6_amended_no_default_returns_self cacheEmptyDefaults datasetUnmatched ["x"] []
      rfl rfl rfl (Or.inl rfl)⟩

/-- Claim C7: a Resource whose `baseParts` is empty fails construction with
`NoResourcePathError`; concretely `new Dataset(coreSource, [])` throws while
`new CommunityDataset(communitySource, [])` succeeds, because the community
override prepends `auspice/` and the repository name, making `baseParts`
non-empty even with zero trailing path segments. -/
theorem claim_C7_empty_base_parts_construction (repoName : String) :
    checkResourceConstruction [] = Except.error ResourceError.noResourcePath
    ∧ mkCoreDataset [] = Except.error ResourceError.noResourcePath
    ∧ mkCommunityDataset repoName [] = Except.ok { sourceName := "community", pathParts := [] } :=
  ⟨rfl, rfl, rfl⟩

/-- Claim C8: whenever the body of `S3Source.getInfo` fails internally — a bucket
listing failure, a missing or unreadable overview object, or malformed
front matter, all surfacing as an error of the `try` block — `getInfo`
still returns (it is total by construction, never raising) a fallback
record that carries an `error` field together with the generic group title
and `showDatasets`/`showNarratives` both true.  The other source variants'
`getInfo` implementations are constant records and never carry an error. -/
theorem claim_C8_getInfo_failure_fallback (name owner repoName branch : String)
    (signedUrl : String → String → String)
    (listResult : Except String (List String))
    (getObj : String → Except String String)
    (loadFront : String → FrontMatter) (e : String)
    (h : s3GetInfoTry name signedUrl listResult getObj loadFront = Except.error e) :
    (s3GetInfo name signedUrl listResult getObj loadFront).error
        = some (String.append "Error in custom group info: " e)
    ∧ (s3GetInfo name signedUrl listResult getObj loadFront).title
        = JsVal.string (groupDefaultTitle name)
    ∧ (s3GetInfo name signedUrl listResult getObj loadFront).showDatasets = JsVal.boolean true
    ∧ (s3GetInfo name signedUrl listResult getObj loadFront).showNarratives = JsVal.boolean true
    ∧ (coreGetInfo name).error = none
    ∧ (communityGetInfo owner repoName branch).error = none
    ∧ urlDefinedGetInfo.error = none := by
  simp [s3GetInfo, h, coreGetInfo, communityGetInfo, urlDefinedGetInfo]

/-- Front matter oracle for the C8 witness (never reached: listing fails). -/
def emptyFrontMatter : String → FrontMatter :=
  fun _ =>
    { title := JsVal.undef, byline := JsVal.undef, website := JsVal.undef,
      showDatasets := JsVal.undef, showNarratives := JsVal.undef, content := "" }

theorem claim_C8_witness :
    s3GetInfoTry "blab" (fun _ _ => "") (Except.error "simulated listing failure")
        (fun _ => Except.error "no such object") emptyFrontMatter
      = Except.error "simulated listing failure"
    ∧ (s3GetInfo "blab" (fun _ _ => "") (Except.error "simulated listing failure")
        (fun _ => Except.error "no such object") emptyFrontMatter).error
      = some (String.append "Error in custom group info: " "simulated listing failure")
    ∧ (s3GetInfo "blab" (fun _ _ => "") (Except.error "simulated listing failure")
        (fun _ => Except.error "no such object") emptyFrontMatter).title
      = JsVal.string (groupDefaultTitle "blab") := by
  have h := claim_C8_getInfo_failure_fallback "blab" "o" "r" "b" (fun _ _ => "")
    (Except.error "simulated listing failure") (fun _ => Except.error "no such object")
    emptyFrontMatter "simulated listing failure" rfl
  exact ⟨rfl, h.1, h.2.1⟩

/-- Claim C9 counterexample: `CommunitySource.availableNarratives` does **not**
raise a not-found error on a 404 from the contents-listing API — it returns
an empty listing, without even logging. -/
theorem claim_C9_counterexample_community_narratives_404 :
    communityAvailableNarratives "community-test" 404 [] = (Except.ok [], false)
    ∧ (communityAvailableNarratives "community-test" 404 []).1
      ≠ Except.error ListingError.notFound := by
  have h1 : communityAvailableNarratives "community-test" 404 [] = (Except.ok [], false) := rfl
  refine ⟨h1, ?_⟩
  rw [h1]
  intro hcontra
  exact Except.noConfusion hcontra

/-- Claim C9 as amended: on a non-success status from the GitHub contents-listing
API, `CoreSource.availableNarratives` and `CommunitySource.availableDatasets`
raise `NotFound` when the status is 404 and otherwise log a warning and
yield an empty list; `CommunitySource.availableNarratives` instead always
yields an empty list, logging only when the status is not 404.  (The
original claim asserted the 404-raises rule for all three operations.) -/
theorem claim_C9_amended_listing_failure_policy (repoName : String) (status : Nat)
    (files : List GFile) (h200 : status ≠ 200) (h304 : status ≠ 304) :
    coreAvailableNarratives status files
      = (if status = 404 then (Except.error ListingError.notFound, false)
         else (Except.ok [], true))
    ∧ communityAvailableDatasets repoName status files
      = (if status = 404 then (Except.error ListingError.notFound, false)
         else (Except.ok [], true))
    ∧ communityAvailableNarratives repoName status files
      = (Except.ok [], decide (status ≠ 404)) := by
  by_cases h404 : status = 404 <;>
    simp [coreAvailableNarratives, communityAvailableDatasets, communityAvailableNarratives,
      h200, h304, h404]

theorem claim_C9_amended_witness :
    (500 ≠ 200) ∧ (500 ≠ 304)
    ∧ coreAvailableNarratives 500 [] = (Except.ok [], true)
    ∧ communityAvailableDatasets "community-test" 500 [] = (Except.ok [], true)
    ∧ communityAvailableNarratives "community-test" 500 [] = (Except.ok [], true) := by
  have h := claim_C9_amended_listing_failure_policy "community-test" 500 [] (by decide) (by decide)
  refine ⟨by decide, by decide, ?_, ?_, ?_⟩
  · simpa using h.1
  · simpa using h.2.1
  · simpa using h.2.2

/-- Claim C10: whenever `resolve()` returns a dataset, it has the same source as
the original and its path parts extend the original's parts: alias
completion only appends segments, never rewriting, reordering, or removing
the caller-supplied ones. -/
theorem claim_C10_resolve_extends_path (avail : AvailableDatasets) (d r : DatasetE)
    (h : resolveD avail d = Except.ok r) :
    r.sourceName = d.sourceName ∧ ∃ ext, r.pathParts = d.pathParts ++ ext := by
  have hf := resolveFuel_of_resolveD avail d
  rw [h] at hf
  exact resolveFuel_ok_extends avail _ d r hf

/-- Availability cache for the C10 witness: a two-step alias chain. -/
def cacheAlias : AvailableDatasets :=
  { paths := [("core", ["flu/seasonal/h3n2"])],
    defaults := [("core", [("flu", "seasonal"), ("flu/seasonal", "h3n2")])] }

/-- An alias dataset for the C10 witness. -/
def datasetAlias : DatasetE :=
  { sourceName := "core", pathParts := ["flu"] }

/-- The canonical result for the C10 witness. -/
def datasetCanonical : DatasetE :=
  { sourceName := "core", pathParts := ["flu", "seasonal", "h3n2"] }

theorem claim_C10_witness :
    resolveD cacheAlias datasetAlias = Except.ok datasetCanonical
    ∧ (datasetCanonical.sourceName = datasetAlias.sourceName
       ∧ ∃ ext, datasetCanonical.pathParts = datasetAlias.pathParts ++ ext) :=
  ⟨rfl, claim_C10_resolve_extends_path cacheAlias datasetAlias datasetCanonical rfl⟩

end Nextstrain
